import Mathlib

/-!
Verification of the lemonade server test harness against its specification.

The subject is the Python integration-test harness in
src/test/utils/server_base.py and src/test/server_system_info.py.  The
harness drives an external server binary: it spawns and stops processes,
polls a TCP port for readiness, writes a mock hardware cache, and checks
the capability report of the server against per-fixture expectation
tables.

The code is shallowly embedded.  External effects (subprocess outcomes,
socket connection attempts, filesystem operations) are supplied as
explicit oracle values, and each harness function becomes a pure Lean
function over those oracles, returning the externally visible actions it
performs (as a trace) together with its result and the updated world.
-/

namespace LemonadeHarness

/-! ## Subprocess and world model for stop_lemonade

A call to Python subprocess.run with check=False either returns a
completed process carrying a return code, or raises
subprocess.TimeoutExpired (timeout reached) or OSError (spawn failure,
for example a missing executable).  With the argument lists used in
server_base.py these are the possible outcomes.
-/

/-- Outcome of one subprocess.run invocation with check=False. -/
inductive Subproc where
  /-- The command ran to completion with this return code. -/
  | completed (rc : Int)
  /-- subprocess.TimeoutExpired was raised. -/
  | timedOut
  /-- OSError was raised. -/
  | osError
deriving DecidableEq

/-- Exceptions that could escape a harness function. -/
inductive PyExc where
  | timeoutExpired
  | osError
deriving DecidableEq

/-- Externally visible actions of the stop path of server_base.py. -/
inductive StopEv where
  /-- systemctl is-active lemonade-server was invoked. -/
  | systemdIsActive
  /-- sudo systemctl stop lemonade-server was invoked. -/
  | systemdStop
  /-- The binary was invoked with its stop subcommand. -/
  | cliStop
  /-- The process was signalled directly (terminate or kill).
  Never emitted by stop_lemonade; listed so its absence can be stated. -/
  | directSignal
deriving DecidableEq

/-- The world stop_lemonade acts on: the global _config entry it reads,
the platform test, the outcome each subprocess invocation would have, and
whether a server process is alive.  A successful systemctl stop or a
successful stop subcommand terminates the server; a timed out or failed
invocation leaves it as it was. -/
structure World where
  /-- sys.platform.startswith("linux") -/
  isLinux : Bool
  /-- _config["server_binary"] -/
  server_binary : Option String
  /-- Outcome of systemctl is-active lemonade-server (timeout 5). -/
  isActiveOutcome : Subproc
  /-- Outcome of sudo systemctl stop lemonade-server (timeout 30). -/
  sysStopOutcome : Subproc
  /-- Outcome of the binary stop subcommand (timeout 30). -/
  cliStopOutcome : Subproc
  /-- Whether a server process is currently alive. -/
  serverAlive : Bool
deriving DecidableEq

/-- Result of _stop_server_via_systemd. -/
structure SystemdResult where
  trace : List StopEv
  stopped : Bool
  world : World
deriving DecidableEq

/-- Result of stop_lemonade: actions performed, an exception escaping the
call if any, and the world afterwards. -/
structure StopResult where
  trace : List StopEv
  raised : Option PyExc
  world : World
deriving DecidableEq

/-- Embedding of _stop_server_via_systemd (server_base.py lines 129-164).
Returns False at once off Linux.  Otherwise runs systemctl is-active; on
return code 0 it runs sudo systemctl stop and reports True exactly when
that returned 0.  OSError and TimeoutExpired from either invocation are
caught by the except clause (a warning is printed) and False is returned;
any other return code also falls through to False. -/
def stopViaSystemd (w : World) : SystemdResult :=
  if w.isLinux = false then ⟨[], false, w⟩
  else
    match w.isActiveOutcome with
    | Subproc.completed rc =>
        if rc = 0 then
          match w.sysStopOutcome with
          | Subproc.completed rc2 =>
              if rc2 = 0 then
                ⟨[StopEv.systemdIsActive, StopEv.systemdStop], true,
                  { w with serverAlive := false }⟩
              else
                -- "Warning: systemctl stop failed" is printed; falls to False
                ⟨[StopEv.systemdIsActive, StopEv.systemdStop], false, w⟩
          | Subproc.timedOut =>
              -- caught by except (OSError, TimeoutExpired)
              ⟨[StopEv.systemdIsActive, StopEv.systemdStop], false, w⟩
          | Subproc.osError =>
              ⟨[StopEv.systemdIsActive, StopEv.systemdStop], false, w⟩
        else ⟨[StopEv.systemdIsActive], false, w⟩
    | Subproc.timedOut => ⟨[StopEv.systemdIsActive], false, w⟩
    | Subproc.osError => ⟨[StopEv.systemdIsActive], false, w⟩

/-- Embedding of stop_lemonade (server_base.py lines 167-194).  Returns at
once when no server binary is configured.  Otherwise tries the systemd
strategy and stops there when it succeeded; else invokes the stop
subcommand of the binary, catching TimeoutExpired and every other
exception (warnings are printed). -/
def stop_lemonade (w : World) : StopResult :=
  match w.server_binary with
  | none => ⟨[], none, w⟩   -- "No server binary configured, skipping stop"
  | some _ =>
      let r := stopViaSystemd w
      if r.stopped then ⟨r.trace, none, r.world⟩
      else
        match r.world.cliStopOutcome with
        | Subproc.completed rc =>
            ⟨r.trace ++ [StopEv.cliStop], none,
              if rc = 0 then { r.world with serverAlive := false } else r.world⟩
        | Subproc.timedOut =>
            -- except subprocess.TimeoutExpired: warning printed
            ⟨r.trace ++ [StopEv.cliStop], none, r.world⟩
        | Subproc.osError =>
            -- except Exception: warning printed
            ⟨r.trace ++ [StopEv.cliStop], none, r.world⟩

/-- The systemd strategy reports success exactly under this condition. -/
def systemdSucceeds (w : World) : Bool :=
  w.isLinux && (w.isActiveOutcome == Subproc.completed 0)
    && (w.sysStopOutcome == Subproc.completed 0)

/-- The actions the systemd strategy performs. -/
def systemdTrace (w : World) : List StopEv :=
  if w.isLinux = false then []
  else if w.isActiveOutcome == Subproc.completed 0 then
    [StopEv.systemdIsActive, StopEv.systemdStop]
  else [StopEv.systemdIsActive]

/-- One call of stop_lemonade terminates the server exactly under this
condition: a binary is configured and either strategy succeeded. -/
def stopEffective (w : World) : Bool :=
  w.server_binary.isSome
    && (systemdSucceeds w || (w.cliStopOutcome == Subproc.completed 0))

/-- A concrete world in which both stop strategies fail: not Linux (so the
systemd strategy is skipped) and the stop subcommand of the binary times
out, with a server process alive. -/
def stuckWorld : World :=
  { isLinux := false
    server_binary := some ("lemonade-server")
    isActiveOutcome := Subproc.completed 0
    sysStopOutcome := Subproc.completed 0
    cliStopOutcome := Subproc.timedOut
    serverAlive := true }

/-- A concrete world with no server binary configured. -/
def noBinaryWorld : World :=
  { isLinux := true
    server_binary := none
    isActiveOutcome := Subproc.completed 0
    sysStopOutcome := Subproc.completed 0
    cliStopOutcome := Subproc.completed 0
    serverAlive := true }

/-! ## ReadinessWaiter: wait_for_server

wait_for_server (server_base.py lines 197-217) loops: when the elapsed
time exceeds the timeout it raises TimeoutError carrying the bound;
otherwise it attempts one TCP connection to localhost:port, returning
True on success and sleeping one second on socket.error before the next
attempt.  Time is modelled in units of that one second delay: openAt u
says whether the connection attempt made after u sleeps succeeds.  The
error payload is the bound named by the TimeoutError message. -/

/-- The retry loop of wait_for_server, from elapsed time t. -/
def waitFrom (openAt : Nat → Bool) (timeout t : Nat) : Except Nat Bool :=
  if h : timeout < t then Except.error timeout
  else if openAt t then Except.ok true
  else waitFrom openAt timeout (t + 1)
termination_by timeout + 1 - t
decreasing_by omega

/-- Embedding of wait_for_server: the loop started at elapsed time 0. -/
def wait_for_server (openAt : Nat → Bool) (timeout : Nat) : Except Nat Bool :=
  waitFrom openAt timeout 0

/-! ## ProcessController: start_server

start_server (server_base.py lines 220-318) builds the serve command,
spawns the binary with a copy of the environment of the test process,
starts two daemon threads relaying stdout and stderr, and then calls
wait_for_server(port) followed by time.sleep(5) before returning. -/

/-- The process environment facts the start path can observe.  headless
records whether no display server is present; the code never reads it,
but the specification words the no-tray condition with it. -/
structure SpawnEnv where
  /-- os.name: the string nt on Windows, posix elsewhere. -/
  osName : String
  /-- os.getenv of LEMONADE_CI_MODE: None when unset. -/
  ciModeVar : Option String
  /-- Whether the machine lacks a display server. -/
  headless : Bool
deriving DecidableEq

/-- Python truthiness of the LEMONADE_CI_MODE value: set and non-empty. -/
def ciModeTruthy (e : SpawnEnv) : Bool :=
  match e.ciModeVar with
  | none => false
  | some s => !s.isEmpty

/-- The condition under which the code appends the no-tray flag
(server_base.py line 254): os.name is nt, or LEMONADE_CI_MODE is truthy. -/
def noTrayCond (e : SpawnEnv) : Bool :=
  (e.osName == "nt") || ciModeTruthy e

/-- Modelled from the spec words for comparison: the flag is claimed to be
appended when running headless or under continuous integration. -/
def noTrayPerSpec (e : SpawnEnv) : Bool :=
  e.headless || ciModeTruthy e

/-- Python truthiness of an optional string argument. -/
def strOptTruthy : Option String → Bool
  | none => false
  | some s => !s.isEmpty

/-- Embedding of the command construction in start_server (server_base.py
lines 249-274).  defaultPort stands for the PORT constant imported from
test_models.py. -/
def buildServeCmd (server_binary : String) (wrapped_server backend : Option String)
    (additional_args : List String) (port defaultPort : Nat) (e : SpawnEnv) :
    List String :=
  let cmd := [server_binary, "serve"]
  let cmd := if noTrayCond e then cmd ++ ["--no-tray"] else cmd
  let cmd := cmd ++ ["--log-level", "debug"]
  let cmd := if port ≠ defaultPort then cmd ++ ["--port", toString port] else cmd
  let cmd :=
    if (wrapped_server == some ("llamacpp")) && strOptTruthy backend then
      cmd ++ ["--llamacpp", backend.getD ""]
    else cmd
  let cmd :=
    if (wrapped_server == some ("sd-cpp")) && strOptTruthy backend then
      cmd ++ ["--sdcpp", backend.getD ""]
    else cmd
  let cmd := if additional_args.isEmpty then cmd else cmd ++ additional_args
  cmd

/-- Externally visible actions of start_server, in order. -/
inductive StartEv where
  /-- subprocess.Popen of the command; the flag records that the
  environment passed is a copy of os.environ. -/
  | spawn (cmd : List String) (inheritedEnvCopy : Bool)
  /-- A relay thread for the named stream was started; the flag records
  daemon=True. -/
  | spawnRelay (stream : String) (daemon : Bool)
  /-- wait_for_server(port) was called, blocking until the port opens. -/
  | waitForPort (port : Nat)
  /-- time.sleep of this many seconds. -/
  | settleSleep (seconds : Nat)
deriving DecidableEq

/-- Embedding of start_server as the ordered actions it performs before
returning (server_base.py lines 276-318). -/
def start_server (server_binary : String) (wrapped_server backend : Option String)
    (additional_args : List String) (port defaultPort : Nat) (e : SpawnEnv) :
    List StartEv :=
  [ StartEv.spawn
      (buildServeCmd server_binary wrapped_server backend additional_args
        port defaultPort e) true,
    StartEv.spawnRelay "stdout" true,
    StartEv.spawnRelay "stderr" true,
    StartEv.waitForPort port,
    StartEv.settleSleep 5 ]

/-- A spawn environment for a headless Linux box outside continuous
integration. -/
def headlessNoCi : SpawnEnv :=
  { osName := "posix", ciModeVar := none, headless := true }

/-! ## Capability matrix verification: run_test_with_mock_hardware

The /system-info response carries a recipes object: recipe name to an
object whose backends key maps backend name to an object with a supported
key.  JSON objects are embedded as association lists; the optional fields
mirror the dict.get calls with defaults in the Python code. -/

/-- One backend entry of the report; supported mirrors
backend_info.get("supported", False). -/
structure BackendInfo where
  supported : Option Bool
deriving DecidableEq

/-- One recipe entry of the report; backends mirrors
recipes[recipe].get("backends", \x7b\x7d). -/
structure RecipeInfo where
  backends : Option (List (String × BackendInfo))
deriving DecidableEq

/-- Python dict lookup over an association list. -/
def lookupA {α : Type} (k : String) : List (String × α) → Option α
  | [] => none
  | (k2, v) :: rest => if k = k2 then some v else lookupA k rest

/-- recipes[recipe].get("backends", empty dict). -/
def getBackends (r : RecipeInfo) : List (String × BackendInfo) :=
  r.backends.getD []

/-- The per-fixture expectation tables of a MOCK_HARDWARE_CONFIGS entry. -/
structure MockConfigExpect where
  expected_supported : List (String × List String)
  expected_unsupported : List (String × List String)
deriving DecidableEq

/-- The assertions run for one (recipe, backend) pair
(server_system_info.py lines 587-599 and 611-624): the backend must be
present in the backends object of the recipe, and its supported value
(absent meaning False) must equal want. -/
def checkBackendPair (want : Bool) (backends : List (String × BackendInfo))
    (recipe b : String) : Except String Unit :=
  match lookupA b backends with
  | none => Except.error ("Expected backend " ++ b ++ " for recipe " ++ recipe)
  | some info =>
      if info.supported.getD false = want then Except.ok ()
      else if want then
        Except.error ("Expected " ++ recipe ++ "/" ++ b ++ " to be supported")
      else
        Except.error ("Expected " ++ recipe ++ "/" ++ b ++ " to be UNsupported")

/-- The inner loop over the expected backends of one recipe; unittest
assertions abort at the first failure. -/
def checkBackendList (want : Bool) (backends : List (String × BackendInfo))
    (recipe : String) : List String → Except String Unit
  | [] => Except.ok ()
  | b :: rest =>
      match checkBackendPair want backends recipe b with
      | Except.ok _ => checkBackendList want backends recipe rest
      | Except.error e => Except.error e

/-- The outer loop over one expectation table (server_system_info.py lines
580-599 for want = true, 601-624 for want = false): each listed recipe
must be present in the recipes object (assertIn runs before the backend
loop, so a missing recipe fails regardless of polarity), then each listed
backend is checked. -/
def checkRecipeEntries (want : Bool) (recipes : List (String × RecipeInfo)) :
    List (String × List String) → Except String Unit
  | [] => Except.ok ()
  | (recipe, bs) :: rest =>
      match lookupA recipe recipes with
      | none => Except.error ("Expected recipe " ++ recipe ++ " in response")
      | some rinfo =>
          match checkBackendList want (getBackends rinfo) recipe bs with
          | Except.ok _ => checkRecipeEntries want recipes rest
          | Except.error e => Except.error e

/-- The matrix verification of run_test_with_mock_hardware: the
expected_supported loop, then the expected_unsupported loop. -/
def verifyRecipeMatrix (recipes : List (String × RecipeInfo))
    (cfg : MockConfigExpect) : Except String Unit :=
  match checkRecipeEntries true recipes cfg.expected_supported with
  | Except.ok _ => checkRecipeEntries false recipes cfg.expected_unsupported
  | Except.error e => Except.error e

/-- The expectation tables of the windows_x86_with_rocm_dgpu fixture
(server_system_info.py lines 137-148). -/
def windowsRocmDgpuExpect : MockConfigExpect :=
  { expected_supported :=
      [ ("llamacpp", ["vulkan", "rocm", "cpu"]),
        ("whispercpp", ["cpu"]),
        ("sd-cpp", ["cpu", "rocm"]) ]
    expected_unsupported :=
      [ ("llamacpp", ["metal"]),
        ("whispercpp", ["npu"]),
        ("flm", ["default"]),
        ("ryzenai-llm", ["default"]) ] }

/-! ## Version tagging of the mock cache: get_server_version

get_server_version (server_system_info.py lines 49-74) invokes the binary
with the version flag.  Strings are handled as character lists so that
the Python string operations (strip, lower, split on whitespace) can be
embedded by structural recursion. -/

/-- Python str.strip() with no argument. -/
def pyTrim (s : List Char) : List Char :=
  ((s.dropWhile Char.isWhitespace).reverse.dropWhile Char.isWhitespace).reverse

/-- Whether the second list starts with the first. -/
def startsWithSeq : List Char → List Char → Bool
  | [], _ => true
  | _ :: _, [] => false
  | a :: as, b :: bs => a == b && startsWithSeq as bs

/-- Python substring membership: needle in haystack. -/
def containsSeq (needle : List Char) : List Char → Bool
  | [] => startsWithSeq needle []
  | c :: rest => startsWithSeq needle (c :: rest) || containsSeq needle rest

/-- Helper of pySplit: acc holds the current word reversed. -/
def splitWSAux (acc : List Char) : List Char → List (List Char)
  | [] => if acc.isEmpty then [] else [acc.reverse]
  | c :: rest =>
      if c.isWhitespace then
        if acc.isEmpty then splitWSAux [] rest
        else acc.reverse :: splitWSAux [] rest
      else splitWSAux (c :: acc) rest

/-- Python str.split() with no argument: split on whitespace runs,
dropping empty pieces. -/
def pySplit (s : List Char) : List (List Char) :=
  splitWSAux [] s

/-- Embedding of get_server_version.  The argument is the stdout of the
version invocation of the binary, or none when subprocess.run raised (the
except clause prints a warning and returns the fallback).  When the word
version occurs in the lowercased stripped output, the first
whitespace-separated part starting with a digit is returned; with no such
part, or without the word version, the whole stripped output is. -/
def get_server_version (runOutcome : Option (List Char)) : List Char :=
  match runOutcome with
  | none => ("9.0.0").data
  | some out =>
      let output := pyTrim out
      if containsSeq (("version").data) (output.map Char.toLower) then
        match (pySplit output).find? (fun part =>
            match part with
            | [] => false
            | c :: _ => c.isDigit) with
        | some part => part
        | none => output
      else output

/-- The document run_test_with_mock_hardware writes into the mock cache
directory (server_system_info.py lines 534-537): the version obtained
from the binary, and the hardware description of the fixture. -/
structure CacheData (H : Type) where
  version : List Char
  hardware : H

/-- cache_data as built in run_test_with_mock_hardware: version is
get_server_version of the version invocation outcome. -/
def mkMockCacheData {H : Type} (runOutcome : Option (List Char)) (hw : H) :
    CacheData H :=
  { version := get_server_version runOutcome, hardware := hw }

/-! ## Cleanup structure of run_test_with_mock_hardware

run_test_with_mock_hardware (server_system_info.py lines 512-640), after
creating the temporary cache directory, runs an outer try whose finally
removes the directory (shutil.rmtree, itself wrapped so its own failure
only prints a warning).  Inside, after writing the cache file and
spawning the server, an inner try runs the wait, the endpoint query and
the assertions; its finally stops the server (stop subcommand, then
terminate, wait, kill on timeout).  The write and the spawn happen
between the two try statements. -/

/-- Exceptions of the mock hardware test body. -/
inductive HwExc where
  /-- Writing hardware_info.json raised (OSError and kin). -/
  | ioError
  /-- subprocess.Popen raised. -/
  | spawnError
  /-- wait_for_server raised TimeoutError. -/
  | startupTimeout
  /-- requests.get raised, or a non-200 status failed the first assert. -/
  | requestError
  /-- One of the matrix assertions failed. -/
  | assertionFailed
deriving DecidableEq

/-- Externally visible actions of run_test_with_mock_hardware after the
temporary cache directory has been created. -/
inductive HwEv where
  | writeCacheFile
  | spawnServer
  | waitForPort
  | queryEndpoint
  | runAsserts
  | stopServerCli
  | terminateProc
  | removeCacheDir
deriving DecidableEq

/-- Which steps of one execution raise: none means the step succeeds. -/
structure HwScript where
  writeOutcome : Option HwExc
  spawnOutcome : Option HwExc
  waitOutcome : Option HwExc
  requestOutcome : Option HwExc
  assertOutcome : Option HwExc
deriving DecidableEq

/-- The inner try body: wait for the port, query /system-info, run the
matrix assertions. -/
def mockHwBody (s : HwScript) : List HwEv × Option HwExc :=
  match s.waitOutcome with
  | some e => ([HwEv.waitForPort], some e)
  | none =>
      match s.requestOutcome with
      | some e => ([HwEv.waitForPort, HwEv.queryEndpoint], some e)
      | none =>
          match s.assertOutcome with
          | some e => ([HwEv.waitForPort, HwEv.queryEndpoint, HwEv.runAsserts], some e)
          | none => ([HwEv.waitForPort, HwEv.queryEndpoint, HwEv.runAsserts], none)

/-- Embedding of run_test_with_mock_hardware from the point the temporary
directory exists: the actions performed and the exception leaving the
call, if any.  The inner finally (stop subcommand, terminate) runs
exactly when the inner try was entered, that is when the write and the
spawn both succeeded; the outer finally (rmtree) runs on every path. -/
def run_test_with_mock_hardware (s : HwScript) : List HwEv × Option HwExc :=
  let outerBody : List HwEv × Option HwExc :=
    match s.writeOutcome with
    | some e => ([HwEv.writeCacheFile], some e)
    | none =>
        match s.spawnOutcome with
        | some e => ([HwEv.writeCacheFile, HwEv.spawnServer], some e)
        | none =>
            let r := mockHwBody s
            (HwEv.writeCacheFile :: HwEv.spawnServer ::
              (r.1 ++ [HwEv.stopServerCli, HwEv.terminateProc]), r.2)
  (outerBody.1 ++ [HwEv.removeCacheDir], outerBody.2)

/-- A script in which writing the cache file raises after the directory
was created. -/
def writeFailsScript : HwScript :=
  { writeOutcome := some HwExc.ioError
    spawnOutcome := none
    waitOutcome := none
    requestOutcome := none
    assertOutcome := none }

/-! ## TestRunner: run_server_tests

run_server_tests (server_base.py lines 422-476) parses arguments, then
runs the suite inside a try whose finally always calls stop_lemonade, and
only then exits with code 0 on success and 1 otherwise.  When the runner
raises, the finally still runs and the exception propagates, so sys.exit
is not reached. -/

/-- Outcome of runner.run(suite). -/
inductive SuiteOutcome where
  /-- The suite ran and every test passed. -/
  | passed
  /-- The suite ran with at least one failure or error recorded. -/
  | failed
  /-- runner.run itself raised. -/
  | raised
deriving DecidableEq

/-- Externally visible actions of run_server_tests. -/
inductive RunnerEv where
  | parseArgs
  | runSuite
  | stopLemonade
  | sysExit (code : Nat)
deriving DecidableEq

/-- Embedding of run_server_tests: its actions in order, and whether an
exception escapes the call. -/
def run_server_tests (o : SuiteOutcome) : List RunnerEv × Bool :=
  match o with
  | SuiteOutcome.passed =>
      ([RunnerEv.parseArgs, RunnerEv.runSuite, RunnerEv.stopLemonade,
        RunnerEv.sysExit 0], false)
  | SuiteOutcome.failed =>
      ([RunnerEv.parseArgs, RunnerEv.runSuite, RunnerEv.stopLemonade,
        RunnerEv.sysExit 1], false)
  | SuiteOutcome.raised =>
      ([RunnerEv.parseArgs, RunnerEv.runSuite, RunnerEv.stopLemonade], true)

/-! ## Helper lemmas for the stop path -/

theorem stopViaSystemd_spec (w : World) :
    (stopViaSystemd w).stopped = systemdSucceeds w
  ∧ (stopViaSystemd w).world
      = (if systemdSucceeds w = true then { w with serverAlive := false } else w)
  ∧ (stopViaSystemd w).trace = systemdTrace w := by
  rcases w with ⟨lin, bin, ia, ss, cli, alive⟩
  cases lin <;> cases ia <;> cases ss <;>
    simp [stopViaSystemd, systemdSucceeds, systemdTrace] <;>
    split_ifs <;> simp_all

theorem stop_lemonade_spec (w : World) :
    (stop_lemonade w).raised = none
  ∧ (stop_lemonade w).world
      = (if stopEffective w = true then { w with serverAlive := false } else w)
  ∧ (stop_lemonade w).trace
      = (if w.server_binary.isSome = false then []
         else systemdTrace w ++ (if systemdSucceeds w = true then [] else [StopEv.cliStop])) := by
  rcases w with ⟨lin, bin, ia, ss, cli, alive⟩
  cases bin <;> cases lin <;> cases ia <;> cases ss <;> cases cli <;>
    simp [stop_lemonade, stopViaSystemd, stopEffective, systemdSucceeds, systemdTrace] <;>
    split_ifs <;> simp_all

/-! ## Claims about the stop path (C3, C5, C10) -/

/-- C3 (amended): stop_lemonade never raises, in any world state and over
repeated calls, and it is idempotent on the world.  But calling it twice
does not guarantee no live server process remains: the server is stopped
only when a binary is configured and either the systemd strategy or the
stop subcommand of the binary succeeds; stop_lemonade has no direct
process-signalling fallback, so when both strategies fail the server
stays alive. -/
theorem c3_stop_idempotent_amended (w : World) :
    (stop_lemonade w).raised = none
  ∧ (stop_lemonade (stop_lemonade w).world).raised = none
  ∧ (stop_lemonade (stop_lemonade w).world).world = (stop_lemonade w).world
  ∧ ((w.server_binary.isSome = true
        ∧ (systemdSucceeds w = true ∨ w.cliStopOutcome = Subproc.completed 0)) →
      (stop_lemonade w).world.serverAlive = false) := by
  obtain ⟨h1, h2, h3⟩ := stop_lemonade_spec w
  obtain ⟨g1, g2, g3⟩ := stop_lemonade_spec (stop_lemonade w).world
  have heff : stopEffective { w with serverAlive := false } = stopEffective w := rfl
  refine ⟨h1, g1, ?_, ?_⟩
  · rw [g2, h2]
    by_cases he : stopEffective w = true
    · simp [he, heff]
    · simp [he]
  · rintro ⟨hb, hor⟩
    have he : stopEffective w = true := by
      simp only [stopEffective, hb, Bool.true_and, Bool.or_eq_true]
      rcases hor with h | h
      · exact Or.inl h
      · exact Or.inr (by simp [h])
    rw [h2, if_pos he]

/-- C3 counterexample: in stuckWorld (no systemd, the stop subcommand of
the binary times out) stop_lemonade raises nothing, but after two calls
in succession a live server process remains, so the claim that two calls
leave no live process is false. -/
theorem c3_counterexample :
    (stop_lemonade (stop_lemonade stuckWorld).world).world.serverAlive = true
  ∧ (stop_lemonade stuckWorld).raised = none
  ∧ (stop_lemonade (stop_lemonade stuckWorld).world).raised = none := by
  decide

/-- C5 (amended): every stop_lemonade call attempts its strategies in
strict order, the systemd stop (is-active probe, then systemctl stop)
before the stop subcommand of the binary, each at most once; the stop
subcommand is attempted exactly when a binary is configured and the
systemd strategy did not succeed; with a configured binary at least one
strategy is attempted.  There is no third, direct process-signalling
strategy: the claimed grace-period terminate and forced kill never
occur in stop_lemonade. -/
theorem c5_stop_strategy_order (w : World) :
    List.Sublist (stop_lemonade w).trace
      [StopEv.systemdIsActive, StopEv.systemdStop, StopEv.cliStop]
  ∧ StopEv.directSignal ∉ (stop_lemonade w).trace
  ∧ (StopEv.cliStop ∈ (stop_lemonade w).trace
       ↔ (w.server_binary.isSome = true ∧ systemdSucceeds w = false))
  ∧ (w.server_binary.isSome = true → (stop_lemonade w).trace ≠ []) := by
  obtain ⟨h1, h2, h3⟩ := stop_lemonade_spec w
  rw [h3]
  rcases w with ⟨lin, bin, ia, ss, cli, alive⟩
  cases bin <;> cases lin <;>
    simp [systemdSucceeds, systemdTrace] <;> split_ifs <;> simp_all

/-- C5 counterexample: in stuckWorld both configured strategies run and
fail (the systemd strategy is skipped off Linux, the stop subcommand
times out), the server stays alive, and no direct process signalling is
attempted — refuting the claimed third strategy of direct signalling
with grace period and forced termination. -/
theorem c5_counterexample :
    (stop_lemonade stuckWorld).trace = [StopEv.cliStop]
  ∧ StopEv.directSignal ∉ (stop_lemonade stuckWorld).trace
  ∧ (stop_lemonade stuckWorld).world.serverAlive = true := by
  decide

/-- C10: with no server binary configured, stop_lemonade returns at once:
it performs no action at all (no systemd invocation, no stop
subcommand), raises nothing, and leaves the world unchanged. -/
theorem c10_stop_no_binary (w : World) (h : w.server_binary = none) :
    stop_lemonade w = ⟨[], none, w⟩ := by
  rcases w with ⟨lin, bin, ia, ss, cli, alive⟩
  simp only [stop_lemonade]
  simp only at h
  rw [h]

/-- C10 witness: the theorem at a concrete world. -/
theorem c10_stop_no_binary_witness :
    stop_lemonade noBinaryWorld = ⟨[], none, noBinaryWorld⟩ :=
  c10_stop_no_binary noBinaryWorld rfl

/-! ## Claims about the start path (C4, C9) -/

/-- C4 (amended): start_server spawns the server binary with a copy of
the inherited environment and starts the two relay threads, but it does
not return immediately: it then blocks on readiness itself, calling
wait_for_server(port) and sleeping five seconds before returning.  The
spawn and both relay starts precede the readiness wait, and the wait and
settle sleep are the final actions before returning. -/
theorem c4_start_server_amended (server_binary : String)
    (wrapped_server backend : Option String) (additional_args : List String)
    (port defaultPort : Nat) (e : SpawnEnv) :
    (start_server server_binary wrapped_server backend additional_args
        port defaultPort e).take 3
      = [ StartEv.spawn (buildServeCmd server_binary wrapped_server backend
            additional_args port defaultPort e) true,
          StartEv.spawnRelay "stdout" true,
          StartEv.spawnRelay "stderr" true ]
  ∧ (start_server server_binary wrapped_server backend additional_args
        port defaultPort e).drop 3
      = [StartEv.waitForPort port, StartEv.settleSleep 5] := by
  exact ⟨rfl, rfl⟩

/-- C4 counterexample: at a concrete invocation, the readiness wait on
the port appears among the actions start_server performs before
returning, refuting the claim that start_server does not block on
readiness and that the waiting happens only in the separate readiness
operation. -/
theorem c4_counterexample :
    StartEv.waitForPort 8000
      ∈ start_server ("lemonade-server") none none [] 8000 8000 headlessNoCi := by
  decide

/-- C9 (amended): the serve command carries the no-tray flag (directly
after the serve subcommand) exactly when os.name is nt (Windows) or the
LEMONADE_CI_MODE variable is set to a non-empty value; whether the
machine is headless is not consulted. -/
theorem c9_no_tray_amended (server_binary : String)
    (wrapped_server backend : Option String) (additional_args : List String)
    (port defaultPort : Nat) (e : SpawnEnv) :
    (buildServeCmd server_binary wrapped_server backend additional_args
        port defaultPort e).take 3
        = [server_binary, "serve", "--no-tray"]
      ↔ (e.osName = "nt" ∨ ciModeTruthy e = true) := by
  have hc : noTrayCond e = true ↔ (e.osName = "nt" ∨ ciModeTruthy e = true) := by
    simp [noTrayCond]
  by_cases h : noTrayCond e = true
  · have htake : (buildServeCmd server_binary wrapped_server backend additional_args
        port defaultPort e).take 3 = [server_binary, "serve", "--no-tray"] := by
      simp only [buildServeCmd, h, if_true]
      split_ifs <;> rfl
    rw [htake]
    simp [hc.mp h]
  · have htake : (buildServeCmd server_binary wrapped_server backend additional_args
        port defaultPort e).take 3 = [server_binary, "serve", "--log-level"] := by
      simp only [buildServeCmd, h, if_false]
      split_ifs <;> first | rfl | contradiction
    rw [htake]
    constructor
    · intro hEq
      exfalso
      have : ("--log-level" : String) = "--no-tray" := by
        injection hEq with h1 h2
        injection h2 with h3 h4
        injection h4 with h5 h6
      exact absurd this (by decide)
    · intro hOr
      exact absurd (hc.mpr hOr) h

/-- C9 counterexample: on a headless Linux machine outside continuous
integration the spec condition (headless or CI) holds, yet the command
start_server builds carries no no-tray flag, so the claimed condition is
not the one of the code. -/
theorem c9_counterexample :
    noTrayPerSpec headlessNoCi = true
  ∧ ("--no-tray" ∉ buildServeCmd ("lemonade-server") none none [] 8000 8000
      headlessNoCi) := by
  decide

/-! ## Claims about run_test_with_mock_hardware cleanup (C2) -/

/-- C2 (amended): on every execution that creates the temporary mock
cache directory, its removal is performed exactly once and is the last
action before the call returns or its exception propagates; the server
stop path (stop subcommand, then terminate) runs — before the removal —
on normal completion, on assertion failure and on any exception raised
after the server spawn, that is whenever the cache-file write and the
spawn both succeeded.  An exception raised after directory creation but
at the write or the spawn skips the stop path, because the inner
try-finally has not been entered; only the removal runs then. -/
theorem c2_cleanup_amended (s : HwScript) :
    (run_test_with_mock_hardware s).1.count HwEv.removeCacheDir = 1
  ∧ (run_test_with_mock_hardware s).1.getLast? = some HwEv.removeCacheDir
  ∧ (s.writeOutcome = none → s.spawnOutcome = none →
       List.Sublist [HwEv.stopServerCli, HwEv.terminateProc, HwEv.removeCacheDir]
         (run_test_with_mock_hardware s).1) := by
  rcases s with ⟨wo, so, wt, rq, asr⟩
  cases wo <;> cases so <;> cases wt <;> cases rq <;> cases asr <;>
    simp [run_test_with_mock_hardware, mockHwBody] <;> try decide

/-- C2 counterexample: when writing hardware_info.json raises after the
directory was created, the removal still runs exactly once and the
exception propagates, but the server stop path does not run, refuting
the claim that the stop path runs on any exception raised after
creation. -/
theorem c2_counterexample :
    (run_test_with_mock_hardware writeFailsScript).1
        = [HwEv.writeCacheFile, HwEv.removeCacheDir]
  ∧ HwEv.stopServerCli ∉ (run_test_with_mock_hardware writeFailsScript).1
  ∧ (run_test_with_mock_hardware writeFailsScript).2 = some HwExc.ioError := by
  decide

/-! ## Claims about run_server_tests (C8) -/

/-- C8: on every outcome of the suite — all tests passing, failures
recorded, or the runner raising — run_server_tests invokes stop_lemonade
at least once, after the suite ran and before any exit, unconditionally
on the outcome. -/
theorem c8_run_server_tests_cleanup (o : SuiteOutcome) :
    List.Sublist [RunnerEv.runSuite, RunnerEv.stopLemonade] (run_server_tests o).1
  ∧ 1 ≤ (run_server_tests o).1.count RunnerEv.stopLemonade
  ∧ (∀ c : Nat, RunnerEv.sysExit c ∈ (run_server_tests o).1 →
       List.Sublist [RunnerEv.stopLemonade, RunnerEv.sysExit c]
         (run_server_tests o).1) := by
  cases o with
  | passed =>
      refine ⟨by decide, by decide, ?_⟩
      intro c hc
      simp [run_server_tests] at hc
      subst hc
      decide
  | failed =>
      refine ⟨by decide, by decide, ?_⟩
      intro c hc
      simp [run_server_tests] at hc
      subst hc
      decide
  | raised =>
      refine ⟨by decide, by decide, ?_⟩
      intro c hc
      simp [run_server_tests] at hc

/-! ## Helper lemmas and claim for wait_for_server (C6) -/

theorem waitFrom_ok_iff_aux (openAt : Nat → Bool) (timeout : Nat) :
    ∀ n t, timeout + 1 - t ≤ n →
      (waitFrom openAt timeout t = Except.ok true ↔
        ∃ u, t ≤ u ∧ u ≤ timeout ∧ openAt u = true) := by
  intro n
  induction n with
  | zero =>
      intro t ht
      have h : timeout < t := by omega
      rw [waitFrom, dif_pos h]
      simp
      rintro u hu1 hu2
      omega
  | succ n ih =>
      intro t ht
      rw [waitFrom]
      by_cases h : timeout < t
      · rw [dif_pos h]
        simp
        rintro u hu1 hu2
        omega
      · by_cases ho : openAt t = true
        · rw [dif_neg h, if_pos ho]
          simp
          exact ⟨t, le_refl t, by omega, ho⟩
        · rw [dif_neg h, if_neg ho]
          rw [ih (t + 1) (by omega)]
          constructor
          · rintro ⟨u, h1, h2, h3⟩
            exact ⟨u, by omega, h2, h3⟩
          · rintro ⟨u, h1, h2, h3⟩
            refine ⟨u, ?_, h2, h3⟩
            rcases Nat.eq_or_lt_of_le h1 with heq | hlt
            · exfalso
              rw [← heq] at h3
              exact ho h3
            · omega

theorem waitFrom_result_aux (openAt : Nat → Bool) (timeout : Nat) :
    ∀ n t, timeout + 1 - t ≤ n →
      (waitFrom openAt timeout t = Except.ok true
        ∨ waitFrom openAt timeout t = Except.error timeout) := by
  intro n
  induction n with
  | zero =>
      intro t ht
      have h : timeout < t := by omega
      rw [waitFrom, dif_pos h]
      simp
  | succ n ih =>
      intro t ht
      rw [waitFrom]
      by_cases h : timeout < t
      · rw [dif_pos h]
        simp
      · by_cases ho : openAt t = true
        · rw [dif_neg h, if_pos ho]
          simp
        · rw [dif_neg h, if_neg ho]
          exact ih (t + 1) (by omega)

/-- C6: wait_for_server returns True exactly when some connection
attempt within the bound succeeds (attempts are one second apart, at
elapsed times 0 through timeout); otherwise it raises TimeoutError
carrying the timeout bound, and these are its only two outcomes. -/
theorem c6_wait_for_server (openAt : Nat → Bool) (timeout : Nat) :
    (wait_for_server openAt timeout = Except.ok true
        ↔ ∃ u, u ≤ timeout ∧ openAt u = true)
  ∧ (wait_for_server openAt timeout = Except.error timeout
        ↔ ∀ u, u ≤ timeout → openAt u = false)
  ∧ (wait_for_server openAt timeout = Except.ok true
      ∨ wait_for_server openAt timeout = Except.error timeout) := by
  have hres := waitFrom_result_aux openAt timeout (timeout + 1) 0 (by omega)
  have hok0 : wait_for_server openAt timeout = Except.ok true
      ↔ ∃ u, u ≤ timeout ∧ openAt u = true := by
    rw [wait_for_server, waitFrom_ok_iff_aux openAt timeout (timeout + 1) 0 (by omega)]
    constructor
    · rintro ⟨u, _, h2, h3⟩
      exact ⟨u, h2, h3⟩
    · rintro ⟨u, h2, h3⟩
      exact ⟨u, Nat.zero_le u, h2, h3⟩
  refine ⟨hok0, ?_, hres⟩
  constructor
  · intro herr u hu
    by_contra hcon
    have hu2 : openAt u = true := by
      revert hcon
      cases openAt u <;> simp
    have : wait_for_server openAt timeout = Except.ok true := hok0.mpr ⟨u, hu, hu2⟩
    rw [this] at herr
    exact Except.noConfusion herr
  · intro hall
    rcases hres with hok1 | herr1
    · exfalso
      obtain ⟨u, hu, hopen⟩ := hok0.mp hok1
      have := hall u hu
      rw [this] at hopen
      exact Bool.noConfusion hopen
    · exact herr1

/-! ## Helper lemmas and claim for the matrix verification (C1) -/

theorem checkBackendPair_ok_iff (want : Bool)
    (backends : List (String × BackendInfo)) (recipe b : String) :
    checkBackendPair want backends recipe b = Except.ok () ↔
      ∃ info, lookupA b backends = some info
        ∧ info.supported.getD false = want := by
  unfold checkBackendPair
  cases h : lookupA b backends with
  | none => simp
  | some info =>
      by_cases hs : info.supported.getD false = want
      · simp [hs]
      · cases want <;> simp [hs]

theorem checkBackendList_ok_iff (want : Bool)
    (backends : List (String × BackendInfo)) (recipe : String)
    (bs : List String) :
    checkBackendList want backends recipe bs = Except.ok () ↔
      ∀ b ∈ bs, ∃ info, lookupA b backends = some info
        ∧ info.supported.getD false = want := by
  induction bs with
  | nil => simp [checkBackendList]
  | cons b rest ih =>
      simp only [checkBackendList]
      cases hp : checkBackendPair want backends recipe b with
      | ok u =>
          cases u
          have hb := (checkBackendPair_ok_iff want backends recipe b).mp hp
          simp [List.forall_mem_cons, ih, hb]
      | error e =>
          have hb : ¬∃ info, lookupA b backends = some info
              ∧ info.supported.getD false = want := by
            intro hcon
            have := (checkBackendPair_ok_iff want backends recipe b).mpr hcon
            rw [hp] at this
            exact Except.noConfusion this
          simp [List.forall_mem_cons, hb]

theorem checkRecipeEntries_ok_iff (want : Bool)
    (recipes : List (String × RecipeInfo))
    (entries : List (String × List String)) :
    checkRecipeEntries want recipes entries = Except.ok () ↔
      ∀ p ∈ entries, ∃ rinfo, lookupA p.1 recipes = some rinfo
        ∧ ∀ b ∈ p.2, ∃ info, lookupA b (getBackends rinfo) = some info
            ∧ info.supported.getD false = want := by
  induction entries with
  | nil => simp [checkRecipeEntries]
  | cons p rest ih =>
      obtain ⟨recipe, bs⟩ := p
      simp only [checkRecipeEntries]
      cases hr : lookupA recipe recipes with
      | none => simp [List.forall_mem_cons, hr]
      | some rinfo =>
          cases hb : checkBackendList want (getBackends rinfo) recipe bs with
          | ok u =>
              cases u
              have h1 := (checkBackendList_ok_iff want (getBackends rinfo) recipe bs).mp hb
              simp [List.forall_mem_cons, ih, hr, h1, hb]
              exact fun _ => h1
          | error e =>
              have hnot : ¬∀ b ∈ bs, ∃ info,
                  lookupA b (getBackends rinfo) = some info
                    ∧ info.supported.getD false = want := by
                intro hcon
                have := (checkBackendList_ok_iff want (getBackends rinfo) recipe bs).mpr hcon
                rw [hb] at this
                exact Except.noConfusion this
              simp [List.forall_mem_cons, hr, hnot, hb]

/-- C1: the matrix verification of run_test_with_mock_hardware passes
exactly when every (recipe, backend) pair of expected_supported is
present in the report with supported true, and every pair of
expected_unsupported is present with supported false (or the supported
key absent, the dict.get default); and a recipe listed in either table
that is missing from the report makes the verification fail with an
assertion error, independent of which table listed it. -/
theorem c1_matrix_verification (recipes : List (String × RecipeInfo))
    (cfg : MockConfigExpect) :
    (verifyRecipeMatrix recipes cfg = Except.ok () ↔
      ((∀ p ∈ cfg.expected_supported, ∃ rinfo,
          lookupA p.1 recipes = some rinfo
            ∧ ∀ b ∈ p.2, ∃ info, lookupA b (getBackends rinfo) = some info
                ∧ info.supported.getD false = true)
       ∧ (∀ p ∈ cfg.expected_unsupported, ∃ rinfo,
          lookupA p.1 recipes = some rinfo
            ∧ ∀ b ∈ p.2, ∃ info, lookupA b (getBackends rinfo) = some info
                ∧ info.supported.getD false = false)))
  ∧ (∀ p : String × List String,
       (p ∈ cfg.expected_supported ∨ p ∈ cfg.expected_unsupported) →
       lookupA p.1 recipes = none →
       ∃ msg, verifyRecipeMatrix recipes cfg = Except.error msg) := by
  have hA := checkRecipeEntries_ok_iff true recipes cfg.expected_supported
  have hB := checkRecipeEntries_ok_iff false recipes cfg.expected_unsupported
  have hmain : verifyRecipeMatrix recipes cfg = Except.ok () ↔
      ((∀ p ∈ cfg.expected_supported, ∃ rinfo,
          lookupA p.1 recipes = some rinfo
            ∧ ∀ b ∈ p.2, ∃ info, lookupA b (getBackends rinfo) = some info
                ∧ info.supported.getD false = true)
       ∧ (∀ p ∈ cfg.expected_unsupported, ∃ rinfo,
          lookupA p.1 recipes = some rinfo
            ∧ ∀ b ∈ p.2, ∃ info, lookupA b (getBackends rinfo) = some info
                ∧ info.supported.getD false = false)) := by
    unfold verifyRecipeMatrix
    cases h1 : checkRecipeEntries true recipes cfg.expected_supported with
    | ok u =>
        cases u
        rw [hB]
        constructor
        · intro hb
          exact ⟨hA.mp h1, hb⟩
        · intro hab
          exact hab.2
    | error e =>
        constructor
        · intro hcon
          exact Except.noConfusion hcon
        · rintro ⟨ha, _⟩
          have := hA.mpr ha
          rw [h1] at this
          exact Except.noConfusion this
  refine ⟨hmain, ?_⟩
  intro p hp hnone
  cases hv : verifyRecipeMatrix recipes cfg with
  | error msg => exact ⟨msg, rfl⟩
  | ok u =>
      cases u
      exfalso
      obtain ⟨ha, hb⟩ := hmain.mp hv
      rcases hp with hp | hp
      · obtain ⟨rinfo, hr, _⟩ := ha p hp
        rw [hnone] at hr
        exact Option.noConfusion hr
      · obtain ⟨rinfo, hr, _⟩ := hb p hp
        rw [hnone] at hr
        exact Option.noConfusion hr

/-! ## Helper lemmas and claim for the cache version tag (C7) -/

theorem startsWithSeq_append_self (n rest : List Char) :
    startsWithSeq n (n ++ rest) = true := by
  induction n with
  | nil => simp [startsWithSeq]
  | cons a as ih => simp [startsWithSeq, ih]

theorem containsSeq_of_startsWith (n : List Char) :
    ∀ pre l, startsWithSeq n l = true → containsSeq n (pre ++ l) = true := by
  intro pre
  induction pre with
  | nil =>
      intro l h
      cases l with
      | nil => simpa [containsSeq] using h
      | cons c rest => simp [containsSeq, h]
  | cons p rest ih =>
      intro l h
      simp [containsSeq, ih l h]

theorem splitWSAux_go (word : List Char) :
    ∀ acc rest, (∀ x ∈ word, x.isWhitespace = false) → (acc ≠ [] ∨ word ≠ []) →
      splitWSAux acc (word ++ ' ' :: rest)
        = (acc.reverse ++ word) :: splitWSAux [] rest := by
  induction word with
  | nil =>
      intro acc rest _ hne
      have hacc : acc ≠ [] := by
        rcases hne with h | h
        · exact h
        · exact absurd rfl h
      simp [splitWSAux, hacc]
  | cons a as ih =>
      intro acc rest hws hne
      have ha : a.isWhitespace = false := hws a (List.mem_cons_self a as)
      have has : ∀ x ∈ as, x.isWhitespace = false :=
        fun x hx => hws x (List.mem_cons_of_mem a hx)
      simp only [List.cons_append, splitWSAux, ha, Bool.false_eq_true, if_false,
        List.append_eq]
      rw [ih (a :: acc) rest has (Or.inl (by simp))]
      simp

theorem splitWSAux_last (word : List Char) :
    ∀ acc, (∀ x ∈ word, x.isWhitespace = false) → (acc ≠ [] ∨ word ≠ []) →
      splitWSAux acc word = [acc.reverse ++ word] := by
  induction word with
  | nil =>
      intro acc _ hne
      have hacc : acc ≠ [] := by
        rcases hne with h | h
        · exact h
        · exact absurd rfl h
      simp [splitWSAux, hacc]
  | cons a as ih =>
      intro acc hws hne
      have ha : a.isWhitespace = false := hws a (List.mem_cons_self a as)
      have has : ∀ x ∈ as, x.isWhitespace = false :=
        fun x hx => hws x (List.mem_cons_of_mem a hx)
      simp only [splitWSAux, ha, Bool.false_eq_true, if_false]
      rw [ih (a :: acc) has (Or.inl (by simp))]
      simp

theorem pyTrim_docline (c : Char) (cs : List Char)
    (hws : ∀ x ∈ c :: cs, x.isWhitespace = false) :
    pyTrim ((("lemonade-server version ").data) ++ (c :: cs))
      = (("lemonade-server version ").data) ++ (c :: cs) := by
  unfold pyTrim
  have hfront :
      ((("lemonade-server version ").data) ++ (c :: cs)).dropWhile Char.isWhitespace
        = (("lemonade-server version ").data) ++ (c :: cs) := by
    show (('l' :: ((("emonade-server version ").data) ++ (c :: cs))).dropWhile
        Char.isWhitespace) = _
    rw [List.dropWhile_cons]
    simp
  rw [hfront]
  have hback :
      ((("lemonade-server version ").data) ++ (c :: cs)).reverse.dropWhile
          Char.isWhitespace
        = ((("lemonade-server version ").data) ++ (c :: cs)).reverse := by
    rw [List.reverse_append]
    cases hv : (c :: cs).reverse with
    | nil => exact absurd hv (by simp)
    | cons a as =>
        have ha : a ∈ c :: cs := by
          rw [← List.mem_reverse, hv]
          exact List.mem_cons_self a as
        rw [List.cons_append, List.dropWhile_cons]
        simp [hws a ha]
  rw [hback]
  simp

theorem get_server_version_doc_format (c : Char) (cs : List Char)
    (hd : c.isDigit = true)
    (hws : ∀ x ∈ c :: cs, x.isWhitespace = false) :
    get_server_version (some ((("lemonade-server version ").data) ++ (c :: cs)))
      = c :: cs := by
  simp only [get_server_version]
  rw [pyTrim_docline c cs hws]
  have hcontains :
      containsSeq (("version").data)
        (((("lemonade-server version ").data) ++ (c :: cs)).map Char.toLower)
        = true := by
    rw [List.map_append]
    exact containsSeq_of_startsWith (("version").data) (("lemonade-server ").data)
      ((("version").data) ++ (' ' :: (c :: cs).map Char.toLower))
      (startsWithSeq_append_self _ _)
  rw [hcontains]
  have hsplit :
      pySplit ((("lemonade-server version ").data) ++ (c :: cs))
        = [("lemonade-server").data, ("version").data, c :: cs] := by
    show splitWSAux []
        ((("lemonade-server").data) ++ ' ' ::
          ((("version").data) ++ ' ' :: (c :: cs))) = _
    rw [splitWSAux_go (("lemonade-server").data) [] _ (by decide)
        (Or.inr (by decide))]
    rw [splitWSAux_go (("version").data) [] _ (by decide) (Or.inr (by decide))]
    rw [splitWSAux_last (c :: cs) [] hws (Or.inr (by simp))]
    simp
  simp only [if_true]
  rw [hsplit]
  rw [List.find?_cons_of_neg, List.find?_cons_of_neg, List.find?_cons_of_pos]
  · exact hd
  · decide
  · decide

/-- C7: the version field of the synthetic hardware document written into
the mock cache directory is exactly the value get_server_version obtains
by invoking the binary with the version flag; on output of the documented
form (lemonade-server version X, with X starting with a digit) that value
is precisely the reported version token X, trailing whitespace included
in neither; with no reported output the fallback 9.0.0 is written. -/
theorem c7_mock_cache_version {H : Type} (hw : H) (r : Option (List Char))
    (c : Char) (cs : List Char) :
    (mkMockCacheData r hw).version = get_server_version r
  ∧ (c.isDigit = true → (∀ x ∈ c :: cs, x.isWhitespace = false) →
      get_server_version
          (some ((("lemonade-server version ").data) ++ (c :: cs)))
        = c :: cs)
  ∧ get_server_version (some (("lemonade-server version 8.1.3\n").data))
      = ("8.1.3").data
  ∧ get_server_version none = ("9.0.0").data := by
  refine ⟨rfl, ?_, by decide, by decide⟩
  intro hd hws
  exact get_server_version_doc_format c cs hd hws

end LemonadeHarness
